import Mathlib

/-!
Verification of the `logger` package of go-utils (src/logger/logger.go).

The Go code is shallowly embedded: pure value-level functions model the
observable behaviour of `New` / `init` / `SetLevel` / `addTraceID` / `Sync`
and the emission pipeline, and a small explicit heap (addresses are list
indices) models the pointer semantics of `*Config` that `New`, `GetConfig`,
`Default` and `SetGlobalConfig` rely on.
-/

namespace GoUtils.Logger

/-- Structure `Config` from logger.go (lines 18-26).  Go `int` fields are modelled as
`Int`; the default-filling step only compares them with `0`. -/
structure Config where
  Level      : String
  FileName   : String
  MaxSize    : Int
  MaxAge     : Int
  MaxBackups : Int
  Compress   : Bool
  TimeZone   : String
deriving DecidableEq, Repr

/-- The package-level `defaultConfig` value (logger.go lines 37-45). -/
def defaultConfig : Config :=
  { Level      := "info"
  , FileName   := "./logs/app.log"
  , MaxSize    := 100
  , MaxAge     := 7
  , MaxBackups := 10
  , Compress   := true
  , TimeZone   := "Asia/Shanghai" }

/-- Line 73: `if config.Level == "" { config.Level = defaultConfig.Level }`. -/
def fillLevel (c : Config) : Config :=
  if c.Level = "" then { c with Level := defaultConfig.Level } else c

/-- Line 76: `if config.FileName == "" { ... }`. -/
def fillFileName (c : Config) : Config :=
  if c.FileName = "" then { c with FileName := defaultConfig.FileName } else c

/-- Line 79: `if config.MaxSize == 0 { ... }`. -/
def fillMaxSize (c : Config) : Config :=
  if c.MaxSize = 0 then { c with MaxSize := defaultConfig.MaxSize } else c

/-- Line 82: `if config.MaxAge == 0 { ... }`. -/
def fillMaxAge (c : Config) : Config :=
  if c.MaxAge = 0 then { c with MaxAge := defaultConfig.MaxAge } else c

/-- Line 85: `if config.MaxBackups == 0 { ... }`. -/
def fillMaxBackups (c : Config) : Config :=
  if c.MaxBackups = 0 then { c with MaxBackups := defaultConfig.MaxBackups } else c

/-- Line 88: `if !config.Compress { config.Compress = defaultConfig.Compress }`;
`false` is indistinguishable from "unset". -/
def fillCompress (c : Config) : Config :=
  if ¬ c.Compress then { c with Compress := defaultConfig.Compress } else c

/-- Line 91: `if config.TimeZone == "" { ... }`. -/
def fillTimeZone (c : Config) : Config :=
  if c.TimeZone = "" then { c with TimeZone := defaultConfig.TimeZone } else c

/-- The default-filling block of `New` (logger.go lines 72-93), executed in
source order. -/
def fillDefaults (c : Config) : Config :=
  fillTimeZone (fillCompress (fillMaxBackups (fillMaxAge (fillMaxSize (fillFileName (fillLevel c))))))

/-- zap's `zapcore.Level` enumeration. -/
inductive ZapLevel where
  | debug
  | info
  | warn
  | error
  | dpanicLevel
  | panicLevel
  | fatal
deriving DecidableEq, Repr

/-- Numeric severity of a zap level (`DebugLevel = -1`, `InfoLevel = 0`, ...). -/
def levelNum : ZapLevel → Int
  | .debug       => -1
  | .info        => 0
  | .warn        => 1
  | .error       => 2
  | .dpanicLevel => 3
  | .panicLevel  => 4
  | .fatal       => 5

/-- One pass of `zapcore.Level.unmarshalText`: the exact strings zap
recognises (lower-case, upper-case, and `""` for info). -/
def parseLevelBase (s : String) : Option ZapLevel :=
  if s = "debug" ∨ s = "DEBUG" then some .debug
  else if s = "info" ∨ s = "INFO" ∨ s = "" then some .info
  else if s = "warn" ∨ s = "WARN" then some .warn
  else if s = "error" ∨ s = "ERROR" then some .error
  else if s = "dpanic" ∨ s = "DPANIC" then some .dpanicLevel
  else if s = "panic" ∨ s = "PANIC" then some .panicLevel
  else if s = "fatal" ∨ s = "FATAL" then some .fatal
  else none

/-- Function `bytes.ToLower` on level text (character-wise lower-casing). -/
def goToLower (s : String) : String :=
  ⟨s.data.map Char.toLower⟩

/-- Parser `zapcore.Level.UnmarshalText`: try the text as given, then lower-cased;
`none` models the "unrecognized level" error. -/
def parseLevel (s : String) : Option ZapLevel :=
  match parseLevelBase s with
  | some lv => some lv
  | none    => parseLevelBase (goToLower s)

/-- Gate check `zapcore.(Core).Enabled`: a candidate severity passes the gate iff it is
at least the current level. -/
def emits (gate candidate : ZapLevel) : Bool :=
  levelNum gate ≤ levelNum candidate

/-- A dynamically-typed Go value, as stored in a `context.Context`. -/
inductive GoValue where
  | str (s : String)
  | int (n : Int)
  | boolean (b : Bool)
deriving DecidableEq, Repr

/-- The `fmt.Sprint` default string representation of a `GoValue`. -/
def goSprint : GoValue → String
  | .str s     => s
  | .int n     => toString n
  | .boolean b => if b then "true" else "false"

/-- A structured log field (`zap.Field`); `zap.String k v` is `⟨k, .str v⟩`. -/
structure Field where
  key   : String
  value : GoValue
deriving DecidableEq, Repr

/-- A `context.Context` modelled as an optional association list of
key/value pairs; `none` is a nil context, and `ctx.Value k` is a lookup
returning `none` when the key is absent (or its value is nil). -/
abbrev GoContext := Option (List (String × GoValue))

/-- Lookup `ctx.Value key` with the Go convention that a nil context has no values. -/
def ctxValue (ctx : GoContext) (key : String) : Option GoValue :=
  match ctx with
  | none   => none
  | some m => m.lookup key

/-- Method `Logger.addTraceID` (logger.go lines 165-172): when the context carries a
non-nil value under `"traceId"`, append a `zap.String` field with its
`fmt.Sprint` representation after the caller-supplied fields. -/
def addTraceID (ctx : GoContext) (fields : List Field) : List Field :=
  match ctx with
  | none   => fields
  | some m =>
    match m.lookup "traceId" with
    | none         => fields
    | some traceId => fields ++ [⟨"traceId", .str (goSprint traceId)⟩]

/-- A resolved `time.Location`: either the process-local zone (`time.Local`)
or a named IANA zone. -/
inductive Loc where
  | loc_local
  | named (name : String)
deriving DecidableEq, Repr

/-- A write target of the emitter: `os.Stdout` or the lumberjack rotating
file sink for a given path. -/
inductive Sink where
  | stdout
  | file (path : String)
deriving DecidableEq, Repr

/-- The zap core wired by `init`: the full JSON core fanning out to a list
of sinks, or the `zap.NewDevelopment()` console logger substituted by `New`
when `init` returns an error. -/
inductive CoreKind where
  | full (sinks : List Sink)
  | devConsole
deriving DecidableEq, Repr

/-- The external collaborators `init` touches: `time.LoadLocation` (the
platform time-zone database) and the outcome of `os.MkdirAll` on the log
directory (which the code discards with `_ =`). -/
structure InitEnv where
  lookupZone : String → Option Loc
  mkdirErr   : Option String

/-- What a successful `init` produces: the resolved location, the gate level
stored in the `AtomicLevel`, and the wired core. -/
structure InitPieces where
  loc  : Loc
  gate : ZapLevel
  core : CoreKind
deriving DecidableEq, Repr

/-- Method `Logger.init` (logger.go lines 108-162).  The time zone falls back to
`time.Local` on `LoadLocation` failure; the `os.MkdirAll` error is discarded;
the `AtomicLevel` falls back to `InfoLevel` when the level text does not
parse; the core is a JSON core over a `MultiWriteSyncer` of stdout and the
lumberjack writer; the function ends in `return nil`, so the result is
always `.ok`. -/
def initGo (env : InitEnv) (cfg : Config) : Except String InitPieces :=
  let loc := match env.lookupZone cfg.TimeZone with
             | some l => l
             | none   => Loc.loc_local
  let gate := match parseLevel cfg.Level with
              | some lv => lv
              | none    => ZapLevel.info
  .ok ⟨loc, gate, CoreKind.full [Sink.stdout, Sink.file cfg.FileName]⟩

/-- The value-observable state of a `*Logger` (pointer aliasing of the
config is handled separately by the heap model below). -/
structure LoggerPure where
  config : Config
  gate   : ZapLevel
  loc    : Loc
  core   : CoreKind
deriving DecidableEq, Repr

/-- Constructor `New` (logger.go lines 65-105), value view: a nil argument starts from a
copy of `defaultConfig`; defaults are filled; `init` runs; were `init` to
fail, the logger would fall back to `zap.NewDevelopment()` (a debug-level
console core). -/
def newGo (env : InitEnv) (arg : Option Config) : LoggerPure :=
  let cfg := match arg with
             | none   => defaultConfig
             | some c => c
  let cfg := fillDefaults cfg
  match initGo env cfg with
  | .ok p     => ⟨cfg, p.gate, p.loc, p.core⟩
  | .error _  => ⟨cfg, ZapLevel.debug, Loc.loc_local, CoreKind.devConsole⟩

/-- The sinks a core writes to: the full core fans out to its sink list, the
development fallback writes to the console only. -/
def sinksOf : CoreKind → List Sink
  | .full sinks => sinks
  | .devConsole => [Sink.stdout]

/-- A serialized log record as far as the claims observe it. -/
structure Record where
  level  : ZapLevel
  msg    : String
  fields : List Field
deriving DecidableEq, Repr

/-- One facade emission call (`Logger.Debug` / `Info` / `Warn` / `Error` /
`Fatal`, logger.go lines 175-202): enrich the fields with the trace id, then
write the record to every sink iff the severity passes the gate. -/
def emitWrites (l : LoggerPure) (lvl : ZapLevel) (ctx : GoContext)
    (msg : String) (fields : List Field) : List (Sink × Record) :=
  let fields := addTraceID ctx fields
  if emits l.gate lvl then
    (sinksOf l.core).map (fun s => (s, ⟨lvl, msg, fields⟩))
  else
    []

/-- Method `Logger.SetLevel` (logger.go lines 264-273): parse the text into the
`AtomicLevel`; on failure return the error leaving everything unchanged; on
success also store the raw text in `config.Level`. -/
def setLevel (l : LoggerPure) (name : String) : Option String × LoggerPure :=
  match parseLevel name with
  | none    => (some ("unrecognized level: " ++ name), l)
  | some lv => (none, { l with gate := lv, config := { l.config with Level := name } })

/-- Does `pat` occur as a contiguous run inside `s`? -/
def listContains (pat : List Char) : List Char → Bool
  | []        => pat.isEmpty
  | c :: rest => pat.isPrefixOf (c :: rest) || listContains pat rest

/-- Function `strings.Contains` via character-list search. -/
def goContains (s pat : String) : Bool :=
  listContains pat.toList s.toList

/-- Method `Logger.Sync` (logger.go lines 249-261) as a function of the error the
underlying `zap.Logger.Sync` reports (`none` = nil error): messages
mentioning "bad file descriptor", "/dev/stdout" or "invalid argument" are
swallowed; every other error is returned unchanged. -/
def syncGo (flushErr : Option String) : Option String :=
  match flushErr with
  | none     => none
  | some msg =>
    if goContains msg "bad file descriptor"
        ∨ goContains msg "/dev/stdout"
        ∨ goContains msg "invalid argument" then
      none
    else
      some msg

/-! ### Heap model

`New` receives a `*Config`, fills defaults through that pointer, and stores
the very same pointer in the `Logger` (logger.go lines 65-97); `GetConfig`
returns a freshly allocated copy (lines 276-283).  To reason about this
aliasing we model `Config` pointers as indices into a list of `Config`
cells and `*Logger` values as indices into a list of logger objects. -/

/-- The mutable part of a heap-allocated `Logger`: the `config` pointer and
the `AtomicLevel` gate value (the emitter wiring is covered by the pure
model above). -/
structure LoggerObj where
  configAddr : Nat
  gate       : ZapLevel
deriving DecidableEq, Repr

/-- A heap: `Config` cells and `Logger` objects, addressed by index. -/
structure Heap where
  configs : List Config
  loggers : List LoggerObj
deriving DecidableEq, Repr

/-- Dereference a `*Config` (dangling pointers read as the zero value; all
theorems track validity of the addresses they use). -/
def readC (h : Heap) (a : Nat) : Config :=
  h.configs.getD a ⟨"", "", 0, 0, 0, false, ""⟩

/-- Store through a `*Config`. -/
def writeC (h : Heap) (a : Nat) (c : Config) : Heap :=
  { h with configs := h.configs.set a c }

/-- Allocate a fresh `Config` cell, returning its address. -/
def allocC (h : Heap) (c : Config) : Nat × Heap :=
  (h.configs.length, { h with configs := h.configs ++ [c] })

/-- Allocate a fresh `Logger` object, returning its address. -/
def allocL (h : Heap) (o : LoggerObj) : Nat × Heap :=
  (h.loggers.length, { h with loggers := h.loggers ++ [o] })

/-- Dereference a `*Logger`. -/
def readL (h : Heap) (i : Nat) : LoggerObj :=
  h.loggers.getD i ⟨0, .info⟩

/-- Constructor `New` (logger.go lines 65-105), pointer view: a nil argument allocates a
copy of `defaultConfig`; a non-nil argument is used in place — the defaults
are written through the caller's pointer and that pointer is stored in the
new `Logger`.  Returns the new logger's address. -/
def newH (arg : Option Nat) (h : Heap) : Nat × Heap :=
  let (a, h1) := match arg with
                 | none    => allocC h defaultConfig
                 | some a0 => (a0, h)
  let h2 := writeC h1 a (fillDefaults (readC h1 a))
  allocL h2 ⟨a, (parseLevel (fillDefaults (readC h1 a)).Level).getD .info⟩

/-- Method `Logger.GetConfig` (logger.go lines 276-283): allocate a copy of the
pointed-to config and return the copy's address. -/
def getConfigH (h : Heap) (lid : Nat) : Nat × Heap :=
  allocC h (readC h (readL h lid).configAddr)

/-- The config value `GetConfig` would copy out for logger `lid`. -/
def getConfigVal (h : Heap) (lid : Nat) : Config :=
  readC h (readL h lid).configAddr

/-- The package-global state: the heap, the `globalLogger` pointer and the
`sync.Once` flag.  Address `0` of the initial heap holds the package-level
`defaultConfig` variable, which `Default()` passes to `New` by pointer. -/
structure GState where
  heap         : Heap
  globalLogger : Option Nat
  onceDone     : Bool
deriving DecidableEq, Repr

/-- Process start: `defaultConfig` allocated at address 0, no loggers,
`globalLogger == nil`, `once` not yet fired. -/
def startGState : GState :=
  ⟨⟨[defaultConfig], []⟩, none, false⟩

/-- Accessor `Default()` (logger.go lines 52-62): return `globalLogger` if non-nil;
otherwise run the `once.Do` body, which re-checks the pointer and constructs
`New(defaultConfig)` — passing the shared default at address 0. -/
def defaultStep (s : GState) : Option Nat × GState :=
  match s.globalLogger with
  | some g => (some g, s)
  | none   =>
    let s1 :=
      if s.onceDone then s
      else
        let s2 := match s.globalLogger with
                  | some _ => s
                  | none   =>
                    let (lid, h') := newH (some 0) s.heap
                    { s with heap := h', globalLogger := some lid }
        { s2 with onceDone := true }
    (s1.globalLogger, s1)

/-- Function `SetGlobalConfig` (logger.go lines 319-321): unconditionally construct a
new logger from the given config pointer and swap it in; the `once` flag is
untouched. -/
def setGlobalConfigH (arg : Option Nat) (s : GState) : GState :=
  let (lid, h') := newH arg s.heap
  { s with heap := h', globalLogger := some lid }

/-! ### Concrete environments used to instantiate theorems -/

/-- A platform with an empty time-zone database and a succeeding `MkdirAll`. -/
def envEmpty : InitEnv := ⟨fun _ => none, none⟩

/-- A platform where `MkdirAll` fails (the code discards the error). -/
def envMkdirFail : InitEnv := ⟨fun _ => none, some "permission denied"⟩

/-! ### Helper lemmas -/

theorem listGetD_append_length {α : Type u_1} (xs : List α) (x d : α) :
    (xs ++ [x]).getD xs.length d = x := by
  induction xs with
  | nil => rfl
  | cons y ys ih => simp only [List.cons_append, List.length_cons, List.getD_cons_succ, ih]

theorem listGetD_set_self {α : Type u_1} (xs : List α) (i : Nat) (v d : α)
    (hi : i < xs.length) : (xs.set i v).getD i d = v := by
  induction xs generalizing i with
  | nil => simp at hi
  | cons y ys ih =>
    cases i with
    | zero => rfl
    | succ i => simpa using ih i (by simpa using hi)

theorem listGetD_set_ne {α : Type u_1} (xs : List α) (i j : Nat) (v d : α)
    (hij : i ≠ j) : (xs.set i v).getD j d = xs.getD j d := by
  induction xs generalizing i j with
  | nil => rfl
  | cons y ys ih =>
    cases i with
    | zero =>
      cases j with
      | zero => exact absurd rfl hij
      | succ j => rfl
    | succ i =>
      cases j with
      | zero => rfl
      | succ j => simpa using ih i j (fun h => hij (by rw [h]))

theorem fillDefaults_spec (c : Config) :
    fillDefaults c =
      ⟨if c.Level = "" then defaultConfig.Level else c.Level,
       if c.FileName = "" then defaultConfig.FileName else c.FileName,
       if c.MaxSize = 0 then defaultConfig.MaxSize else c.MaxSize,
       if c.MaxAge = 0 then defaultConfig.MaxAge else c.MaxAge,
       if c.MaxBackups = 0 then defaultConfig.MaxBackups else c.MaxBackups,
       true,
       if c.TimeZone = "" then defaultConfig.TimeZone else c.TimeZone⟩ := by
  obtain ⟨l, f, s, a, b, cp, t⟩ := c
  by_cases hl : l = "" <;> by_cases hf : f = "" <;> by_cases hs : s = 0 <;>
    by_cases ha : a = 0 <;> by_cases hb : b = 0 <;> cases cp <;>
    by_cases ht : t = "" <;>
    simp [fillDefaults, fillLevel, fillFileName, fillMaxSize, fillMaxAge,
          fillMaxBackups, fillCompress, fillTimeZone, defaultConfig,
          hl, hf, hs, ha, hb, ht]

theorem newGo_config (env : InitEnv) (c : Config) :
    (newGo env (some c)).config = fillDefaults c := rfl

theorem newGo_core (env : InitEnv) (c : Config) :
    (newGo env (some c)).core
      = CoreKind.full [Sink.stdout, Sink.file (fillDefaults c).FileName] := rfl

theorem newGo_gate (env : InitEnv) (c : Config) :
    (newGo env (some c)).gate = (parseLevel (fillDefaults c).Level).getD .info := by
  cases h : parseLevel (fillDefaults c).Level <;>
    simp [newGo, initGo, h]

theorem newGo_loc (env : InitEnv) (c : Config) :
    (newGo env (some c)).loc
      = (env.lookupZone (fillDefaults c).TimeZone).getD Loc.loc_local := by
  cases h : env.lookupZone (fillDefaults c).TimeZone <;>
    simp [newGo, initGo, h]

theorem emits_iff (g l : ZapLevel) : emits g l = true ↔ levelNum g ≤ levelNum l := by
  simp [emits]

theorem emitWrites_ne_nil (l : LoggerPure) (lvl : ZapLevel) (ctx : GoContext)
    (msg : String) (fs : List Field) (hs : sinksOf l.core ≠ []) :
    (emitWrites l lvl ctx msg fs ≠ [] ↔ levelNum l.gate ≤ levelNum lvl) := by
  unfold emitWrites
  cases hb : emits l.gate lvl with
  | false =>
    have : ¬ levelNum l.gate ≤ levelNum lvl := by
      intro hle
      rw [(emits_iff _ _).mpr hle] at hb
      exact absurd hb (by simp)
    simp [this]
  | true => simp [(emits_iff _ _).mp hb, hs]

/-! ### Claims -/

/-- C1: Gate law — for a logger whose current level is `warn`, emission at
`debug`/`info` severity produces no sink writes while emission at
`warn`/`error` severity does; in general a record is emitted iff its
severity is at least the current level in the order
debug < info < warn < error < fatal. -/
theorem gate_law (env : InitEnv) (c : Config) (ctx : GoContext) (msg : String)
    (fs : List Field) (hwarn : c.Level = "warn") :
    (emitWrites (newGo env (some c)) .debug ctx msg fs = [] ∧
     emitWrites (newGo env (some c)) .info ctx msg fs = [] ∧
     emitWrites (newGo env (some c)) .warn ctx msg fs ≠ [] ∧
     emitWrites (newGo env (some c)) .error ctx msg fs ≠ []) ∧
    (∀ (c' : Config) (lvl : ZapLevel),
       emitWrites (newGo env (some c')) lvl ctx msg fs ≠ [] ↔
         levelNum (newGo env (some c')).gate ≤ levelNum lvl) := by
  have hgen : ∀ (c' : Config) (lvl : ZapLevel),
      emitWrites (newGo env (some c')) lvl ctx msg fs ≠ [] ↔
        levelNum (newGo env (some c')).gate ≤ levelNum lvl := by
    intro c' lvl
    refine emitWrites_ne_nil _ _ _ _ _ ?_
    rw [newGo_core]
    simp [sinksOf]
  have hgate : (newGo env (some c)).gate = .warn := by
    rw [newGo_gate, fillDefaults_spec]
    simp [hwarn, parseLevel, parseLevelBase]
  refine ⟨⟨?_, ?_, ?_, ?_⟩, hgen⟩
  · simp [emitWrites, hgate, emits, levelNum]
  · simp [emitWrites, hgate, emits, levelNum]
  · exact (hgen c .warn).mpr (by simp [hgate, levelNum])
  · exact (hgen c .error).mpr (by simp [hgate, levelNum])

theorem gate_law_witness :
    emitWrites (newGo envEmpty (some ⟨"warn", "app.log", 0, 0, 0, false, ""⟩))
      .debug none "m" [] = [] ∧
    emitWrites (newGo envEmpty (some ⟨"warn", "app.log", 0, 0, 0, false, ""⟩))
      .warn none "m" [] ≠ [] := by
  have h := gate_law envEmpty ⟨"warn", "app.log", 0, 0, 0, false, ""⟩ none "m" [] rfl
  exact ⟨h.1.1, h.1.2.2.1⟩

/-- C4: Default filling — constructing with only `Level` and `FileName` set
(all other fields zero-valued) yields a configuration where every other
field equals the default configuration's field, and the caller-set `Level`
and `FileName` are untouched. -/
theorem default_filling (env : InitEnv) (lv fn : String)
    (hl : lv ≠ "") (hf : fn ≠ "") :
    (newGo env (some ⟨lv, fn, 0, 0, 0, false, ""⟩)).config =
      ⟨lv, fn, defaultConfig.MaxSize, defaultConfig.MaxAge,
       defaultConfig.MaxBackups, defaultConfig.Compress,
       defaultConfig.TimeZone⟩ := by
  rw [newGo_config, fillDefaults_spec]
  simp [hl, hf, defaultConfig]

theorem default_filling_witness :
    (newGo envEmpty (some ⟨"debug", "x.log", 0, 0, 0, false, ""⟩)).config =
      ⟨"debug", "x.log", 100, 7, 10, true, "Asia/Shanghai"⟩ := by
  have h := default_filling envEmpty "debug" "x.log" (by decide) (by decide)
  exact h

/-- C5: Trace enrichment — with no `traceId` value in the context (or a nil
context) the caller-supplied fields are returned unchanged; with a `traceId`
value present, exactly one extra field named `traceId` holding the value's
default string representation is appended after all caller fields. -/
theorem trace_enrichment (ctx : GoContext) (fs : List Field) :
    (ctxValue ctx "traceId" = none → addTraceID ctx fs = fs) ∧
    (∀ v, ctxValue ctx "traceId" = some v →
       addTraceID ctx fs = fs ++ [⟨"traceId", GoValue.str (goSprint v)⟩] ∧
       (addTraceID ctx fs).length = fs.length + 1) := by
  constructor
  · intro h
    cases ctx with
    | none => rfl
    | some m =>
      simp only [ctxValue] at h
      simp [addTraceID, h]
  · intro v hv
    cases ctx with
    | none => simp [ctxValue] at hv
    | some m =>
      simp only [ctxValue] at hv
      simp [addTraceID, hv]

theorem trace_enrichment_witness :
    addTraceID (some [("traceId", GoValue.int 42)]) [⟨"k", GoValue.str "v"⟩] =
      [⟨"k", GoValue.str "v"⟩, ⟨"traceId", GoValue.str "42"⟩] ∧
    addTraceID none [⟨"k", GoValue.str "v"⟩] = [⟨"k", GoValue.str "v"⟩] := by
  have h1 := (trace_enrichment (some [("traceId", GoValue.int 42)])
      [⟨"k", GoValue.str "v"⟩]).2 (GoValue.int 42) rfl
  have h2 := (trace_enrichment none [⟨"k", GoValue.str "v"⟩]).1 rfl
  exact ⟨h1.1, h2⟩

/-- C8: Compress cannot be disabled — for every configuration passed to
`New`, the constructed logger's `Compress` equals the default (`true`),
because the filling step treats `Compress == false` as unset. -/
theorem compress_cannot_be_disabled (env : InitEnv) (c : Config) :
    (newGo env (some c)).config.Compress = defaultConfig.Compress ∧
    (newGo env (some c)).config.Compress = true := by
  rw [newGo_config, fillDefaults_spec]
  exact ⟨rfl, rfl⟩

/-- C9: Sync benign-error allow-list — a nil flush error yields nil; a flush
error whose message contains "bad file descriptor", "invalid argument" or
"/dev/stdout" is swallowed; every other flush error is returned unchanged. -/
theorem sync_allowlist :
    syncGo none = none ∧
    (∀ m, (goContains m "bad file descriptor" = true ∨
           goContains m "invalid argument" = true ∨
           goContains m "/dev/stdout" = true) → syncGo (some m) = none) ∧
    (∀ m, ¬ (goContains m "bad file descriptor" = true ∨
             goContains m "invalid argument" = true ∨
             goContains m "/dev/stdout" = true) → syncGo (some m) = some m) := by
  refine ⟨rfl, ?_, ?_⟩
  · intro m hm
    simp only [syncGo]
    split_ifs with h
    · rfl
    · rcases hm with h1 | h1 | h1 <;> simp [h1] at h
  · intro m hm
    simp only [syncGo]
    split_ifs with h
    · rcases h with h1 | h1 | h1
      · exact absurd (Or.inl h1) hm
      · exact absurd (Or.inr (Or.inr h1)) hm
      · exact absurd (Or.inr (Or.inl h1)) hm
    · rfl

theorem sync_allowlist_witness :
    syncGo (some "sync /dev/stdout: invalid argument") = none ∧
    syncGo (some "disk full") = some "disk full" := by
  refine ⟨sync_allowlist.2.1 _ ?_, sync_allowlist.2.2 _ ?_⟩
  · exact Or.inr (Or.inl (by decide))
  · decide

/-- C2: SetLevel contract — for each name in
{debug, info, warn, error, fatal}, `SetLevel` succeeds and a subsequent
`GetConfig().Level` equals exactly that name; for a name the parser rejects,
`SetLevel` returns an error and leaves the whole logger state (gate and
configuration) unchanged. -/
theorem setLevel_contract (l : LoggerPure) (name : String) :
    ((name = "debug" ∨ name = "info" ∨ name = "warn" ∨
      name = "error" ∨ name = "fatal") →
       (setLevel l name).1 = none ∧ (setLevel l name).2.config.Level = name) ∧
    (parseLevel name = none →
       (setLevel l name).1.isSome = true ∧ (setLevel l name).2 = l) := by
  constructor
  · intro h
    rcases h with h | h | h | h | h <;> subst h <;>
      exact ⟨rfl, rfl⟩
  · intro h
    simp [setLevel, h]

theorem setLevel_contract_witness :
    (setLevel (newGo envEmpty (some defaultConfig)) "warn").1 = none ∧
    (setLevel (newGo envEmpty (some defaultConfig)) "warn").2.config.Level = "warn" ∧
    (setLevel (newGo envEmpty (some defaultConfig)) "not-a-level").1.isSome = true ∧
    (setLevel (newGo envEmpty (some defaultConfig)) "not-a-level").2 =
      newGo envEmpty (some defaultConfig) := by
  have h1 := (setLevel_contract (newGo envEmpty (some defaultConfig)) "warn").1
    (Or.inr (Or.inr (Or.inl rfl)))
  have h2 := (setLevel_contract (newGo envEmpty (some defaultConfig)) "not-a-level").2
    (by decide)
  exact ⟨h1.1, h1.2, h2.1, h2.2⟩

/-- C3: Construction never fails — for every configuration (and platform
state) `init` succeeds and `New` yields a logger carrying the full pipeline;
an unresolvable time zone falls back to the process-local zone, unparsable
level text falls back to `info`, and every subsequent emission call is a
total fan-out (two writes when the gate passes, none otherwise), with no
error channel. -/
theorem construction_never_fails (env : InitEnv) (c : Config) :
    (∃ p, initGo env (fillDefaults c) = Except.ok p) ∧
    (newGo env (some c)).core
      = CoreKind.full [Sink.stdout, Sink.file (fillDefaults c).FileName] ∧
    (env.lookupZone (fillDefaults c).TimeZone = none →
       (newGo env (some c)).loc = Loc.loc_local) ∧
    (parseLevel (fillDefaults c).Level = none →
       (newGo env (some c)).gate = ZapLevel.info) ∧
    (∀ lvl ctx msg fs,
       (emitWrites (newGo env (some c)) lvl ctx msg fs).length =
         if emits (newGo env (some c)).gate lvl then 2 else 0) := by
  refine ⟨⟨_, rfl⟩, newGo_core env c, ?_, ?_, ?_⟩
  · intro h
    rw [newGo_loc, h]
    rfl
  · intro h
    rw [newGo_gate, h]
    rfl
  · intro lvl ctx msg fs
    unfold emitWrites
    cases hb : emits (newGo env (some c)).gate lvl <;>
      simp [hb, newGo_core, sinksOf]

theorem construction_never_fails_witness :
    (newGo envEmpty (some ⟨"bogus", "x.log", 0, 0, 0, false, "Not/AZone"⟩)).loc
      = Loc.loc_local ∧
    (newGo envEmpty (some ⟨"bogus", "x.log", 0, 0, 0, false, "Not/AZone"⟩)).gate
      = ZapLevel.info := by
  have h := construction_never_fails envEmpty
    ⟨"bogus", "x.log", 0, 0, 0, false, "Not/AZone"⟩
  exact ⟨h.2.2.1 rfl, h.2.2.2.1 (by decide)⟩

/-- C10: `init` returns nil for every configuration (its result depends only
on the time-zone database, not on whether directory creation failed), so the
development-logger fallback branch in `New` is unreachable: every logger
`New` returns carries the full JSON core wired to stdout and the rotating
file sink. -/
theorem init_always_ok (env env' : InitEnv) (c : Config) (arg : Option Config)
    (hz : env.lookupZone = env'.lookupZone) :
    (∃ p, initGo env c = Except.ok p) ∧
    initGo env c = initGo env' c ∧
    (newGo env arg).core
      = CoreKind.full [Sink.stdout, Sink.file (newGo env arg).config.FileName] := by
  refine ⟨⟨_, rfl⟩, ?_, ?_⟩
  · unfold initGo
    rw [hz]
  · cases arg <;> rfl

theorem init_always_ok_witness :
    (∃ p, initGo envMkdirFail defaultConfig = Except.ok p) ∧
    initGo envMkdirFail defaultConfig = initGo envEmpty defaultConfig ∧
    (newGo envMkdirFail none).core
      = CoreKind.full [Sink.stdout, Sink.file "./logs/app.log"] := by
  have h := init_always_ok envMkdirFail envEmpty defaultConfig none rfl
  exact ⟨h.1, h.2.1, h.2.2⟩

/-- C6: Singleton lifecycle — from process start, repeated `Default()` calls
return the same logger reference and the second call leaves the state
untouched; after `SetGlobalConfig`, `Default()` returns exactly the logger
that call constructed and the lazy-init guard neither reconstructs nor
overwrites it (the state is unchanged). -/
theorem singleton_lifecycle :
    ((defaultStep startGState).1.isSome = true ∧
     (defaultStep (defaultStep startGState).2).1 = (defaultStep startGState).1 ∧
     (defaultStep (defaultStep startGState).2).2 = (defaultStep startGState).2) ∧
    (∀ (s : GState) (arg : Option Nat),
       (defaultStep (setGlobalConfigH arg s)).1 = some (newH arg s.heap).1 ∧
       (defaultStep (setGlobalConfigH arg s)).2 = setGlobalConfigH arg s) := by
  refine ⟨by decide, ?_⟩
  intro s arg
  cases hn : newH arg s.heap with
  | mk lid h' =>
    have hset : setGlobalConfigH arg s =
        { s with heap := h', globalLogger := some lid } := by
      simp [setGlobalConfigH, hn]
    rw [hset]
    exact ⟨rfl, rfl⟩

/-- C7 is false as stated: `New` stores the caller's `*Config` pointer after
filling it in place, so mutating the caller's record after construction
changes what `GetConfig` reports.  Concretely, constructing from the config
at address 0 and then writing `Level := "hacked"` through that address
changes the logger's observed configuration. -/
theorem config_isolation_counterexample :
    ¬ (getConfigVal
         (writeC (newH (some 0) ⟨[⟨"debug", "a.log", 0, 0, 0, false, ""⟩], []⟩).2 0
                 ⟨"hacked", "a.log", 100, 7, 10, true, "Asia/Shanghai"⟩)
         (newH (some 0) ⟨[⟨"debug", "a.log", 0, 0, 0, false, ""⟩], []⟩).1
       = getConfigVal (newH (some 0) ⟨[⟨"debug", "a.log", 0, 0, 0, false, ""⟩], []⟩).2
           (newH (some 0) ⟨[⟨"debug", "a.log", 0, 0, 0, false, ""⟩], []⟩).1) := by
  decide

/-- C7 (amended): for a logger constructed by `New` from a valid `*Config`,
`GetConfig` reports the filled configuration and returns a defensive copy —
writing any value through the address `GetConfig` returns leaves the
logger's observed configuration unchanged; however, the logger's internal
configuration aliases the caller's record, so writing any value through the
caller's pointer is observed verbatim by a subsequent `GetConfig`. -/
theorem config_isolation_amended (h : Heap) (a : Nat) (ha : a < h.configs.length) :
    getConfigVal (newH (some a) h).2 (newH (some a) h).1
      = fillDefaults (readC h a) ∧
    (∀ v : Config,
       getConfigVal
         (writeC (getConfigH (newH (some a) h).2 (newH (some a) h).1).2
                 (getConfigH (newH (some a) h).2 (newH (some a) h).1).1 v)
         (newH (some a) h).1
       = fillDefaults (readC h a)) ∧
    (∀ v : Config,
       getConfigVal (writeC (newH (some a) h).2 a v) (newH (some a) h).1 = v) := by
  have hfst : (newH (some a) h).1 = h.loggers.length := rfl
  have hsnd : (newH (some a) h).2 =
      ⟨h.configs.set a (fillDefaults (readC h a)),
       h.loggers ++ [⟨a, (parseLevel (fillDefaults (readC h a)).Level).getD .info⟩]⟩ := rfl
  refine ⟨?_, ?_, ?_⟩
  · unfold getConfigVal readL readC
    rw [hsnd, hfst, listGetD_append_length]
    exact listGetD_set_self _ _ _ _ ha
  · intro v
    unfold getConfigH allocC getConfigVal writeC readL readC
    rw [hsnd, hfst, listGetD_append_length]
    have hne : (h.configs.set a (fillDefaults (readC h a))).length ≠ a := by
      intro hEq
      rw [List.length_set] at hEq
      omega
    rw [listGetD_set_ne _ _ _ _ _ hne,
        List.getD_append _ _ _ _ (by simpa using ha)]
    exact listGetD_set_self _ _ _ _ ha
  · intro v
    unfold getConfigVal writeC readL readC
    rw [hsnd, hfst, listGetD_append_length]
    exact listGetD_set_self _ _ _ _ (by simpa using ha)

theorem config_isolation_amended_witness :
    getConfigVal
        (newH (some 0) ⟨[⟨"debug", "a.log", 0, 0, 0, false, ""⟩], []⟩).2
        (newH (some 0) ⟨[⟨"debug", "a.log", 0, 0, 0, false, ""⟩], []⟩).1
      = fillDefaults ⟨"debug", "a.log", 0, 0, 0, false, ""⟩ ∧
    getConfigVal
        (writeC (newH (some 0) ⟨[⟨"debug", "a.log", 0, 0, 0, false, ""⟩], []⟩).2 0
                ⟨"hacked", "a.log", 100, 7, 10, true, "Asia/Shanghai"⟩)
        (newH (some 0) ⟨[⟨"debug", "a.log", 0, 0, 0, false, ""⟩], []⟩).1
      = ⟨"hacked", "a.log", 100, 7, 10, true, "Asia/Shanghai"⟩ := by
  have h := config_isolation_amended ⟨[⟨"debug", "a.log", 0, 0, 0, false, ""⟩], []⟩ 0
    (by decide)
  exact ⟨h.1, h.2.2 ⟨"hacked", "a.log", 100, 7, 10, true, "Asia/Shanghai"⟩⟩

end GoUtils.Logger
